import Mathlib

/-!
Verification of the DevFlow task store, remote client and reconciler
(`src/taskManager.ts`, `src/taskTreeProvider.ts`,
`src/webview/sidebarProvider.ts`).

Modelling conventions:
* JavaScript strings are modelled as `List Char` (abbreviated `Str`);
  JS `<=` on strings is the lexicographic order `strLe`, JS
  `String.prototype.startsWith` is `strStartsWith`.
* Every call to `now()` (`new Date().toISOString()`) is passed in as an
  explicit timestamp parameter, and the random output of `generateId()`
  (`crypto.randomUUID().slice(0, 8)`) is passed in as an explicit `id`
  parameter, making the nondeterminism of the source explicit.
* The file system is passed as an explicit value: mutating operations
  take the loaded `TasksFile` and return the file that `saveTasks`
  persists.
* The `JSON.parse` boundary (`loadTasks`, `loadTasksFromRemote`) is
  modelled over an untyped JSON value type `JValue`; the outcome of the
  parser / the network is an explicit input.
-/

namespace DevFlow

/-- JavaScript strings, modelled as lists of characters. -/
abbrev Str := List Char

/-- JS `a < b` on strings: lexicographic comparison by code units. -/
def strLt : Str → Str → Bool
  | [], [] => false
  | [], _ :: _ => true
  | _ :: _, [] => false
  | a :: as, b :: bs => if a < b then true else if b < a then false else strLt as bs

/-- JS `a <= b` on strings. -/
def strLe (a b : Str) : Bool := !(strLt b a)

/-- JS `s.startsWith(p)`. -/
def strStartsWith (s p : Str) : Bool := p.isPrefixOf s

/-- The `TaskStatus` union type of `taskManager.ts`:
`"pending" | "in_progress" | "done" | "snoozed"`. -/
inductive TaskStatus where
  | pending
  | in_progress
  | done
  | snoozed
  deriving DecidableEq, Repr

/-- The string literal each `TaskStatus` member stands for in the source. -/
def statusStr : TaskStatus → Str
  | .pending => "pending".data
  | .in_progress => "in_progress".data
  | .done => "done".data
  | .snoozed => "snoozed".data

/-- The `Task` interface of `taskManager.ts`. Optional fields are `Option`. -/
structure Task where
  id : Str
  title : Str
  description : Option Str
  status : TaskStatus
  createdAt : Str
  completedAt : Option Str
  snoozedUntil : Option Str
  deriving DecidableEq, Repr

/-- The `TasksFile` interface of `taskManager.ts`. -/
structure TasksFile where
  version : Nat
  tasks : List Task
  lastUpdated : Str
  deriving DecidableEq, Repr

/-- The empty-store sentinel `{ version: 1, tasks: [], lastUpdated: now() }`. -/
def emptyStore (ts : Str) : TasksFile :=
  { version := 1, tasks := [], lastUpdated := ts }

/-- The `saveTasks` function: stamps `lastUpdated = now()` and persists
the whole file (the returned value is what is written to disk). -/
def saveTasks (data : TasksFile) (ts : Str) : TasksFile :=
  { version := data.version, tasks := data.tasks, lastUpdated := ts }

/-- JS `find`-then-mutate: replaces the first element satisfying `p`
by its image under `g`, leaving everything else in place. -/
def updateFirst (p : Task → Bool) (g : Task → Task) : List Task → List Task
  | [] => []
  | t :: ts => if p t then g t :: ts else t :: updateFirst p g ts

/-- The `addTask` function: appends a fresh pending task and saves.
`id` stands for the `generateId()` output, `tsCreate` for the `now()`
inside the task literal, `tsSave` for the `now()` inside `saveTasks`. -/
def addTask (data : TasksFile) (id title : Str) (description : Option Str)
    (tsCreate tsSave : Str) : Task × TasksFile :=
  let task : Task :=
    { id := id, title := title, description := description,
      status := .pending, createdAt := tsCreate,
      completedAt := none, snoozedUntil := none }
  (task,
   saveTasks { version := data.version, tasks := data.tasks ++ [task],
               lastUpdated := data.lastUpdated } tsSave)

/-- The `completeTask` function: finds the task by `id`; if absent,
returns `null` without saving; else sets `status = "done"`,
`completedAt = now()`, saves, and returns the task. -/
def completeTask (data : TasksFile) (id : Str) (tsDone tsSave : Str) :
    Option Task × TasksFile :=
  match data.tasks.find? (fun t => t.id == id) with
  | none => (none, data)
  | some t =>
      (some { t with status := .done, completedAt := some tsDone },
       saveTasks { version := data.version,
                   tasks := updateFirst (fun u => u.id == id)
                     (fun u => { u with status := .done, completedAt := some tsDone })
                     data.tasks,
                   lastUpdated := data.lastUpdated } tsSave)

/-- The `startTask` function: finds the task by `id`; if absent, returns
`null` without saving; else sets `status = "in_progress"` (touching no
other field), saves, and returns the task. -/
def startTask (data : TasksFile) (id : Str) (tsSave : Str) :
    Option Task × TasksFile :=
  match data.tasks.find? (fun t => t.id == id) with
  | none => (none, data)
  | some t =>
      (some { t with status := .in_progress },
       saveTasks { version := data.version,
                   tasks := updateFirst (fun u => u.id == id)
                     (fun u => { u with status := .in_progress })
                     data.tasks,
                   lastUpdated := data.lastUpdated } tsSave)

/-- The `snoozeTask` function: finds the task by `id`; if absent, returns
`null` without saving; else sets `status = "snoozed"`,
`snoozedUntil = date` (the caller-supplied string, unvalidated), saves,
and returns the task. -/
def snoozeTask (data : TasksFile) (id date : Str) (tsSave : Str) :
    Option Task × TasksFile :=
  match data.tasks.find? (fun t => t.id == id) with
  | none => (none, data)
  | some t =>
      (some { t with status := .snoozed, snoozedUntil := some date },
       saveTasks { version := data.version,
                   tasks := updateFirst (fun u => u.id == id)
                     (fun u => { u with status := .snoozed, snoozedUntil := some date })
                     data.tasks,
                   lastUpdated := data.lastUpdated } tsSave)

/-- JS truthiness of a possibly-undefined string field
(`undefined` and `""` are falsy). -/
def truthyStr : Option Str → Bool
  | none => false
  | some s => !s.isEmpty

/-- The date predicate inside `getTasks` (`taskManager.ts` lines
113-121): if `t.status === "snoozed" && t.snoozedUntil` (truthiness),
test `t.snoozedUntil <= targetDate`; otherwise
`t.createdAt.startsWith(targetDate) || t.status !== "snoozed"`. -/
def datePred (targetDate : Str) (t : Task) : Bool :=
  if t.status == .snoozed && truthyStr t.snoozedUntil then
    strLe (t.snoozedUntil.getD []) targetDate
  else
    strStartsWith t.createdAt targetDate || !(t.status == .snoozed)

/-- The `getTasks` filter pipeline over a loaded file: an optional status
filter then an optional date filter (`none` models an absent or falsy
filter field). -/
def getTasks (data : TasksFile) (statusFilter : Option TaskStatus)
    (dateFilter : Option Str) : List Task :=
  let afterStatus :=
    match statusFilter with
    | some s => data.tasks.filter (fun t => t.status == s)
    | none => data.tasks
  match dateFilter with
  | some d => afterStatus.filter (datePred d)
  | none => afterStatus

/-- The reconciler of `taskTreeProvider.pollRemote` /
`sidebarProvider.refresh`: keep the full local list, compute the set of
local ids, and append the remote tasks whose id is not in that set. -/
def reconcile (localTasks remoteTasks : List Task) : List Task :=
  let localIds : List Str := localTasks.map Task.id
  let uniqueRemote := remoteTasks.filter (fun t => !(localIds.contains t.id))
  localTasks ++ uniqueRemote

/-- The ``id:status`` entry a task contributes to the fingerprint. -/
def entry (t : Task) : Str := t.id ++ [':'] ++ statusStr t.status

/-- Sorted insertion of a string into a list (helper for `sortStrs`). -/
def insertSorted (s : Str) : List Str → List Str
  | [] => [s]
  | x :: xs => if strLe s x then s :: x :: xs else x :: insertSorted s xs

/-- JS `Array.prototype.sort()` on strings, modelled as a stable
insertion sort by the same lexicographic order. -/
def sortStrs : List Str → List Str
  | [] => []
  | x :: xs => insertSorted x (sortStrs xs)

/-- JS `array.join("|")`. -/
def joinBar : List Str → Str
  | [] => []
  | [s] => s
  | s :: s' :: rest => s ++ '|' :: joinBar (s' :: rest)

/-- The `tasksFingerprint` function of `taskTreeProvider.ts`:
``tasks.map(t => t.id + ":" + t.status).sort().join("|")``. -/
def tasksFingerprint (tasks : List Task) : Str :=
  joinBar (sortStrs (tasks.map entry))

/-- Untyped JSON values, for the `JSON.parse` boundary. -/
inductive JValue where
  | null
  | bool (b : Bool)
  | num (n : Int)
  | str (s : Str)
  | arr (elems : List JValue)
  | obj (fields : List (Str × JValue))

/-- First-match field lookup in a JSON object. -/
def lookupField (k : Str) : List (Str × JValue) → Option JValue
  | [] => none
  | (k', v) :: fs => if k' == k then some v else lookupField k fs

/-- Property access `v.k` on a JSON value (`none` models `undefined`). -/
def jField (k : Str) : JValue → Option JValue
  | .obj fs => lookupField k fs
  | _ => none

/-- JS truthiness of a JSON value. -/
def jsTruthy : JValue → Bool
  | .null => false
  | .bool b => b
  | .num n => !(n == 0)
  | .str s => !s.isEmpty
  | .arr _ => true
  | .obj _ => true

/-- Shape check for one task record of the store schema. -/
def isTaskShape : JValue → Bool
  | .obj fs =>
      (match lookupField "id".data fs with | some (.str _) => true | _ => false) &&
      (match lookupField "title".data fs with | some (.str _) => true | _ => false) &&
      (match lookupField "description".data fs with
        | none => true | some (.str _) => true | _ => false) &&
      (match lookupField "status".data fs with
        | some (.str s) =>
            s == "pending".data || s == "in_progress".data ||
            s == "done".data || s == "snoozed".data
        | _ => false) &&
      (match lookupField "createdAt".data fs with | some (.str _) => true | _ => false) &&
      (match lookupField "completedAt".data fs with
        | none => true | some (.str _) => true | _ => false) &&
      (match lookupField "snoozedUntil".data fs with
        | none => true | some (.str _) => true | _ => false)
  | _ => false

/-- Shape check for the store schema of §3: `version` is the number `1`,
`tasks` is an array of task records, `lastUpdated` is a string. -/
def isStoreShape : JValue → Bool
  | .obj fs =>
      (match lookupField "version".data fs with | some (.num 1) => true | _ => false) &&
      (match lookupField "tasks".data fs with
        | some (.arr l) => l.all isTaskShape | _ => false) &&
      (match lookupField "lastUpdated".data fs with | some (.str _) => true | _ => false)
  | _ => false

/-- The empty-store sentinel as the JSON value `loadTasks` builds. -/
def storeSentinelJ (ts : Str) : JValue :=
  .obj [("version".data, .num 1), ("tasks".data, .arr []), ("lastUpdated".data, .str ts)]

/-- State of the local `.tasks.json` file as seen by `loadTasks`:
missing, present but failing `JSON.parse`, or parsed to a JSON value. -/
inductive LocalFile where
  | missing
  | invalid
  | parsed (v : JValue)

/-- The `loadTasks` function at the parse boundary: a missing file or a
`JSON.parse` failure yields the sentinel; a successful parse is returned
as-is (`JSON.parse(raw) as TasksFile` performs no validation). -/
def loadTasks : LocalFile → Str → JValue
  | .missing, ts => storeSentinelJ ts
  | .invalid, ts => storeSentinelJ ts
  | .parsed v, _ => v

/-- Outcome of the HTTP GET inside `loadTasksFromRemote`: transport
error, timeout, or a response with a status code and a body (`none`
models a body on which `JSON.parse` throws). -/
inductive RemoteOutcome where
  | netError
  | timeout
  | response (status : Nat) (body : Option JValue)

/-- The value `data.tasks || []` of `loadTasksFromRemote`. Accessing
`.tasks` on `null` throws in JS, but the `catch` resolves with the same
empty list, so both paths are `arr []` here. -/
def tasksFieldOrEmpty (v : JValue) : JValue :=
  match jField "tasks".data v with
  | some t => if jsTruthy t then t else .arr []
  | none => .arr []

/-- The resolved value of `loadTasksFromRemote`:
`{ version: 1, tasks: <raw JSON value>, lastUpdated: now() }`. -/
structure RemoteTasksFile where
  version : Nat
  tasks : JValue
  lastUpdated : Str

/-- The empty-store sentinel `loadTasksFromRemote` resolves with on
every failure path. -/
def remoteSentinel (ts : Str) : RemoteTasksFile :=
  { version := 1, tasks := .arr [], lastUpdated := ts }

/-- The `loadTasksFromRemote` function (`taskManager.ts` lines 56-92):
every handler calls `resolve`, never `reject`; the response status code
is never read. -/
def loadTasksFromRemote : RemoteOutcome → Str → RemoteTasksFile
  | .netError, ts => remoteSentinel ts
  | .timeout, ts => remoteSentinel ts
  | .response _ none, ts => remoteSentinel ts
  | .response _ (some v), ts =>
      { version := 1, tasks := tasksFieldOrEmpty v, lastUpdated := ts }

/-- Pairwise distinctness of the ids in a store file (§3 invariant). -/
def idsDistinct (f : TasksFile) : Prop := (f.tasks.map Task.id).Nodup

/-! Concrete fixtures used by witnesses and counterexamples. -/

/-- Concrete timestamp fixture. -/
def ts0 : Str := "2024-01-01T00:00:00.000Z".data

/-- Helper building a task with the given id and status. -/
def mkTask (i : Str) (s : TaskStatus) : Task :=
  { id := i, title := "t".data, description := none, status := s,
    createdAt := "2024-01-01T00:00:00.000Z".data,
    completedAt := none, snoozedUntil := none }

/-- Concrete empty store fixture. -/
def cexStore0 : TasksFile := emptyStore ts0

/-- Concrete pending task fixture. -/
def cexTask1 : Task := mkTask "aaaa".data .pending

/-- Concrete done task with stale lifecycle fields set. -/
def cexTask2 : Task :=
  { id := "bbbb".data, title := "two".data, description := some "d".data,
    status := .done, createdAt := "2024-01-01T00:00:00.000Z".data,
    completedAt := some "2024-02-01T00:00:00.000Z".data,
    snoozedUntil := some "2024-03-01".data }

/-- Concrete two-task store fixture. -/
def cexStore2 : TasksFile :=
  { version := 1, tasks := [cexTask1, cexTask2], lastUpdated := ts0 }

/-! Claim C1: the reconciler's merge. -/

/-- Spec-side formulation of the reconciler's keep-test: "the remote
task's `id` does not occur among the local ids". -/
def noLocalId (L : List Task) (t : Task) : Bool :=
  decide (∀ u ∈ L, u.id ≠ t.id)

/-- Pointwise bridge between the code's `Set`-membership test on the
mapped ids and the semantic statement "no local task has this id". -/
theorem contains_id_bridge (L : List Task) (t : Task) :
    (!((L.map Task.id).contains t.id)) = noLocalId L t := by
  rw [List.contains, List.elem_eq_mem, noLocalId]
  rcases h : decide (∀ u ∈ L, u.id ≠ t.id) with _ | _
  · simp only [decide_eq_false_iff_not] at h
    push_neg at h
    obtain ⟨u, hu, he⟩ := h
    simp [List.mem_map]
    exact ⟨u, hu, he⟩
  · simp only [decide_eq_true_eq] at h
    simp [List.mem_map]
    intro u hu
    exact fun he => (h u hu) he

/-- C1: for all local `L` and remote `R`, the merged list is exactly `L`
followed by the remote tasks whose id does not occur in `L`, each side in
its original order; a remote task whose id collides with a local id does
not appear in the appended remote part. -/
theorem reconcile_local_precedence (L R : List Task) :
    reconcile L R = L ++ R.filter (noLocalId L) ∧
    (reconcile L R).take L.length = L ∧
    ((reconcile L R).drop L.length).Sublist R ∧
    (∀ t ∈ L, t ∈ reconcile L R) ∧
    (∀ t ∈ R, (∃ u ∈ L, u.id = t.id) → t ∉ (reconcile L R).drop L.length) := by
  have hre : reconcile L R = L ++ R.filter (noLocalId L) := by
    simp only [reconcile]
    rw [List.filter_congr (fun t _ => contains_id_bridge L t)]
  refine ⟨hre, ?_, ?_, ?_, ?_⟩
  · rw [hre, List.take_left]
  · rw [hre, List.drop_left]
    exact List.filter_sublist R
  · intro t ht
    rw [hre]
    exact List.mem_append_left _ ht
  · intro t _ hcol hmem
    rw [hre, List.drop_left, List.mem_filter] at hmem
    have := of_decide_eq_true hmem.2
    obtain ⟨u, hu, he⟩ := hcol
    exact this u hu he

/-- Witness for C1 at the spec's §8 example: local `a`,`b` and remote
`b`,`c`. -/
theorem reconcile_local_precedence_witness :
    (reconcile [mkTask "a".data .pending, mkTask "b".data .pending]
        [mkTask "b".data .done, mkTask "c".data .pending]).take 2 =
      [mkTask "a".data .pending, mkTask "b".data .pending] := by
  have h := reconcile_local_precedence
      [mkTask "a".data .pending, mkTask "b".data .pending]
      [mkTask "b".data .done, mkTask "c".data .pending]
  simpa using h.2.1

/-- Supporting concrete check of the spec's §8 reconciler example: the
merge is `a`, local `b`, `c` in that order. -/
theorem reconcile_example :
    reconcile [mkTask "a".data .pending, mkTask "b".data .pending]
        [mkTask "b".data .done, mkTask "c".data .pending] =
      [mkTask "a".data .pending, mkTask "b".data .pending, mkTask "c".data .pending] := by
  decide

/-! Claim C2: id uniqueness under `add`. -/

/-- Counterexample to C2 as stated: `generateId` is 8 random hex
characters checked against nothing, so a sequence of two `add` calls in
which the random source yields `"deadbeef"` twice (a possible
`crypto.randomUUID().slice(0, 8)` output) produces duplicate ids. -/
theorem addTask_duplicate_id_counterexample :
    ¬ idsDistinct
      (addTask (addTask cexStore0 "deadbeef".data "first".data none ts0 ts0).2
        "deadbeef".data "second".data none ts0 ts0).2 := by
  unfold idsDistinct
  decide

/-- C2 amended: `add` preserves pairwise-distinct ids provided the
generated id is not already present in the store. -/
theorem addTask_preserves_idsDistinct (f : TasksFile) (id title : Str)
    (description : Option Str) (tsCreate tsSave : Str)
    (h1 : idsDistinct f) (h2 : id ∉ f.tasks.map Task.id) :
    idsDistinct (addTask f id title description tsCreate tsSave).2 := by
  unfold idsDistinct addTask saveTasks
  simp only [List.map_append, List.map_cons, List.map_nil]
  rw [List.nodup_append]
  exact ⟨h1, List.nodup_singleton _, List.disjoint_singleton.mpr h2⟩

/-- Witness for the amended C2 at a concrete fresh id. -/
theorem addTask_preserves_idsDistinct_witness :
    idsDistinct (addTask cexStore0 "deadbeef".data "first".data none ts0 ts0).2 :=
  addTask_preserves_idsDistinct cexStore0 "deadbeef".data "first".data none ts0 ts0
    (by unfold idsDistinct; decide) (by decide)

/-! Claim C9: non-empty titles. -/

/-- Counterexample to C9 as stated: `addTask` accepts the empty string as
a title (no validation exists in `taskManager.ts`) and stores it
verbatim, so the created — and persisted — task has an empty title. -/
theorem addTask_empty_title_counterexample :
    (addTask cexStore0 "aaaaaaaa".data [] none ts0 ts0).1.title = [] ∧
    ∃ t ∈ (addTask cexStore0 "aaaaaaaa".data [] none ts0 ts0).2.tasks, t.title = [] := by
  decide

/-- C9 amended: `add` stores the title argument verbatim, so the created
task's title is non-empty exactly when the caller passes a non-empty
title; the store itself does not enforce non-emptiness. -/
theorem addTask_title_verbatim (f : TasksFile) (id title : Str)
    (description : Option Str) (tsCreate tsSave : Str) (h : title ≠ []) :
    (addTask f id title description tsCreate tsSave).1.title = title ∧
    (addTask f id title description tsCreate tsSave).1.title ≠ [] :=
  ⟨rfl, h⟩

/-- Witness for the amended C9 at a concrete non-empty title. -/
theorem addTask_title_verbatim_witness :
    (addTask cexStore0 "aaaaaaaa".data "fix".data none ts0 ts0).1.title = "fix".data ∧
    (addTask cexStore0 "aaaaaaaa".data "fix".data none ts0 ts0).1.title ≠ [] :=
  addTask_title_verbatim cexStore0 "aaaaaaaa".data "fix".data none ts0 ts0 (by decide)

/-! Claims C4 and C8: the lookup-then-mutate operations. -/

/-- Replacing the first match: if the list splits as
`as ++ t :: bs` with no match in `as` and `t` matching, `updateFirst`
rewrites exactly `t` and nothing else. -/
theorem updateFirst_eq_of_split (p : Task → Bool) (g : Task → Task)
    (as bs : List Task) (t : Task)
    (has : ∀ a ∈ as, (!p a) = true) (ht : p t = true) :
    updateFirst p g (as ++ t :: bs) = as ++ g t :: bs := by
  induction as with
  | nil => simp [updateFirst, ht]
  | cons a as ih =>
      have ha : p a = false := by
        have := has a (by simp)
        simpa using this
      simp only [List.cons_append, updateFirst, ha, Bool.false_eq_true, if_false]
      exact congrArg (List.cons a) (ih (fun x hx => has x (by simp [hx])))

/-- C4: `complete(id)` on an existing id returns the task with
`status = done` and a non-empty `completedAt`, and persists it; on a
missing id it returns `null` and the persisted file is the loaded file,
entirely unchanged (no save, `lastUpdated` untouched). -/
theorem completeTask_found_and_missing (f : TasksFile) (id tsDone tsSave : Str)
    (hts : tsDone ≠ []) :
    ((∀ t ∈ f.tasks, t.id ≠ id) → completeTask f id tsDone tsSave = (none, f)) ∧
    ((∃ t ∈ f.tasks, t.id = id) →
      ∃ t', (completeTask f id tsDone tsSave).1 = some t' ∧
        t'.status = TaskStatus.done ∧ t'.completedAt = some tsDone ∧ tsDone ≠ [] ∧
        t' ∈ (completeTask f id tsDone tsSave).2.tasks) := by
  rcases heq : f.tasks.find? (fun t => t.id == id) with _ | t
  · rw [List.find?_eq_none] at heq
    constructor
    · intro _
      simp [completeTask, List.find?_eq_none.mpr heq]
    · intro ⟨t, hmem, hid⟩
      exact absurd (by simp [hid] : (t.id == id) = true) (heq t hmem)
  · obtain ⟨hp, as, bs, hsplit, has⟩ := List.find?_eq_some.mp heq
    constructor
    · intro hall
      have hmem : t ∈ f.tasks := List.mem_of_find?_eq_some heq
      exact absurd (by simpa using hp) (hall t hmem)
    · intro _
      refine ⟨{ t with status := .done, completedAt := some tsDone }, ?_, rfl, rfl, hts, ?_⟩
      · simp [completeTask, heq]
      · simp only [completeTask, heq, saveTasks]
        rw [hsplit, updateFirst_eq_of_split _ _ as bs t has hp]
        exact List.mem_append_right _ (List.mem_cons_self _ _)

/-- Witness for C4: completing a missing id on a concrete two-task store
returns `null` and leaves the store value untouched. -/
theorem completeTask_found_and_missing_witness :
    completeTask cexStore2 "zzzz".data "2024-05-01T00:00:00.000Z".data ts0 =
      (none, cexStore2) := by
  have h := completeTask_found_and_missing cexStore2 "zzzz".data
      "2024-05-01T00:00:00.000Z".data ts0 (by decide)
  exact h.1 (by decide)

/-- C8: `start(id)` on an existing id rewrites only that task's `status`
to `in_progress`: its previously set `completedAt` and `snoozedUntil`
survive, its identity fields are unchanged, and every task before and
after it in the list is untouched. -/
theorem startTask_frame (f : TasksFile) (id tsSave : Str)
    (h : ∃ t ∈ f.tasks, t.id = id) :
    ∃ pre t post,
      f.tasks = pre ++ t :: post ∧ t.id = id ∧ (∀ u ∈ pre, u.id ≠ id) ∧
      (startTask f id tsSave).1 = some { t with status := TaskStatus.in_progress } ∧
      (startTask f id tsSave).2.tasks =
        pre ++ { t with status := TaskStatus.in_progress } :: post ∧
      ({ t with status := TaskStatus.in_progress }).completedAt = t.completedAt ∧
      ({ t with status := TaskStatus.in_progress }).snoozedUntil = t.snoozedUntil ∧
      ({ t with status := TaskStatus.in_progress }).id = t.id ∧
      ({ t with status := TaskStatus.in_progress }).title = t.title ∧
      ({ t with status := TaskStatus.in_progress }).description = t.description ∧
      ({ t with status := TaskStatus.in_progress }).createdAt = t.createdAt := by
  rcases heq : f.tasks.find? (fun t => t.id == id) with _ | t
  · rw [List.find?_eq_none] at heq
    obtain ⟨t, hmem, hid⟩ := h
    exact absurd (by simp [hid] : (t.id == id) = true) (heq t hmem)
  · obtain ⟨hp, as, bs, hsplit, has⟩ := List.find?_eq_some.mp heq
    refine ⟨as, t, bs, hsplit, by simpa using hp, ?_, ?_, ?_, rfl, rfl, rfl, rfl, rfl, rfl⟩
    · intro u hu
      have := has u hu
      simpa using this
    · simp [startTask, heq]
    · simp only [startTask, heq, saveTasks]
      rw [hsplit, updateFirst_eq_of_split _ _ as bs t has hp]

/-- Witness for C8 at a concrete store whose target task is `done` with
both stale lifecycle fields set. -/
theorem startTask_frame_witness :
    ∃ pre t post,
      cexStore2.tasks = pre ++ t :: post ∧ t.id = "bbbb".data ∧
      (∀ u ∈ pre, u.id ≠ "bbbb".data) ∧
      (startTask cexStore2 "bbbb".data ts0).1 =
        some { t with status := TaskStatus.in_progress } ∧
      (startTask cexStore2 "bbbb".data ts0).2.tasks =
        pre ++ { t with status := TaskStatus.in_progress } :: post ∧
      ({ t with status := TaskStatus.in_progress }).completedAt = t.completedAt ∧
      ({ t with status := TaskStatus.in_progress }).snoozedUntil = t.snoozedUntil ∧
      ({ t with status := TaskStatus.in_progress }).id = t.id ∧
      ({ t with status := TaskStatus.in_progress }).title = t.title ∧
      ({ t with status := TaskStatus.in_progress }).description = t.description ∧
      ({ t with status := TaskStatus.in_progress }).createdAt = t.createdAt :=
  startTask_frame cexStore2 "bbbb".data ts0 (by decide)

/-! Claims C5 and C10: the date predicate of `getTasks`. -/

/-- Concrete snoozed task with an empty `snoozedUntil` string. -/
def snoozedEmptyTask : Task :=
  { cexTask1 with status := TaskStatus.snoozed, snoozedUntil := some [] }

/-- Concrete snoozed task due before the 2024-06-01 target. -/
def snoozedDueTask : Task :=
  { cexTask1 with status := TaskStatus.snoozed, snoozedUntil := some "2024-05-01".data }

/-- Counterexample to C5 as stated: a snoozed task whose `snoozedUntil`
is the empty string (reachable via `snoozeTask(dir, id, "")`, whose date
argument is unvalidated) has `snoozedUntil <= targetDate`, yet the
truthiness guard sends it to the fallback branch, where it does not
match. -/
theorem datePred_empty_snoozedUntil_counterexample :
    (snoozeTask cexStore2 "aaaa".data [] ts0).1 = some snoozedEmptyTask ∧
    snoozedEmptyTask.status = TaskStatus.snoozed ∧
    strLe (snoozedEmptyTask.snoozedUntil.getD []) "2025-06-01".data = true ∧
    datePred "2025-06-01".data snoozedEmptyTask = false := by
  decide

/-- C5 amended: a snoozed task with a non-empty `snoozedUntil` matches
exactly when `snoozedUntil <= targetDate`; a non-snoozed task matches
unconditionally, which also makes it match the disjunction "createdAt
falls on the target date OR the task is not snoozed". -/
theorem datePred_spec (targetDate : Str) (t : Task) :
    (∀ su, t.status = TaskStatus.snoozed → t.snoozedUntil = some su → su ≠ [] →
      (datePred targetDate t = true ↔ strLe su targetDate = true)) ∧
    (t.status ≠ TaskStatus.snoozed → datePred targetDate t = true) ∧
    (t.status ≠ TaskStatus.snoozed →
      (datePred targetDate t = true ↔
        (strStartsWith t.createdAt targetDate = true ∨ t.status ≠ TaskStatus.snoozed))) := by
  refine ⟨?_, ?_, ?_⟩
  · intro su hst hsu hne
    have htr : truthyStr (some su) = true := by
      cases su with
      | nil => exact absurd rfl hne
      | cons c cs => simp [truthyStr]
    simp [datePred, hst, hsu, htr]
  · intro hst
    have : (t.status == TaskStatus.snoozed) = false := by simpa using hst
    simp [datePred, this]
  · intro hst
    have : (t.status == TaskStatus.snoozed) = false := by simpa using hst
    simp [datePred, this, hst]

/-- Witness for the amended C5: a concrete snoozed task with non-empty
`snoozedUntil` due before the target matches the filter. -/
theorem datePred_spec_witness :
    datePred "2024-06-01".data snoozedDueTask = true := by
  have h := datePred_spec "2024-06-01".data snoozedDueTask
  exact (h.1 "2024-05-01".data rfl rfl (by decide)).mpr (by decide)

/-- C10: a task whose status is `snoozed` but whose `snoozedUntil` is
absent falls through to the fallback branch, where
`status !== "snoozed"` is false, so it matches exactly when `createdAt`
starts with the target date string. -/
theorem datePred_snoozed_missing_until (targetDate : Str) (t : Task)
    (h1 : t.status = TaskStatus.snoozed) (h2 : t.snoozedUntil = none) :
    datePred targetDate t = true ↔ strStartsWith t.createdAt targetDate = true := by
  simp [datePred, h1, h2, truthyStr]

/-- Witness for C10: a concrete snoozed task without `snoozedUntil`,
created on the target date, matches the filter. -/
theorem datePred_snoozed_missing_until_witness :
    datePred "2024-01-01".data (mkTask "eeee".data TaskStatus.snoozed) = true :=
  (datePred_snoozed_missing_until "2024-01-01".data
      (mkTask "eeee".data TaskStatus.snoozed) (by decide) (by decide)).mpr (by decide)

/-! Claim C3: the `loadTasks` parse boundary. -/

/-- Counterexample to C3 as stated: the file content `"null"` is valid
JSON without the store shape, yet `loadTasks` returns the parsed value
as-is (`JSON.parse(raw) as TasksFile` validates nothing): the result
neither matches the store schema nor is the empty-store sentinel. -/
theorem loadTasks_no_schema_validation_counterexample :
    loadTasks (LocalFile.parsed JValue.null) ts0 = JValue.null ∧
    isStoreShape JValue.null = false ∧
    JValue.null ≠ storeSentinelJ ts0 := by
  refine ⟨rfl, rfl, ?_⟩
  simp [storeSentinelJ]

/-- C3 amended: `loadTasks` returns the empty-store sentinel for a
missing file and for contents that fail `JSON.parse`, and it is total
(never throws past its boundary); the sentinel itself matches the store
schema; but any successfully parsed JSON value is returned verbatim,
with no schema validation. -/
theorem loadTasks_parse_boundary (ts : Str) (v : JValue) :
    loadTasks LocalFile.missing ts = storeSentinelJ ts ∧
    loadTasks LocalFile.invalid ts = storeSentinelJ ts ∧
    isStoreShape (storeSentinelJ ts) = true ∧
    loadTasks (LocalFile.parsed v) ts = v :=
  ⟨rfl, rfl, rfl, rfl⟩

/-! Claim C7: the `loadTasksFromRemote` failure handling. -/

/-- Concrete JSON body carrying a `tasks` array. -/
def remoteBody : JValue :=
  .obj [("tasks".data, .arr [.str "x".data])]

/-- Counterexample to C7 as stated: `loadTasksFromRemote` never reads the
status code, so a non-2xx (here 500) response whose JSON body carries a
`tasks` array resolves with those tasks, not with the empty-store
sentinel. -/
theorem loadTasksFromRemote_status_ignored_counterexample :
    (loadTasksFromRemote (RemoteOutcome.response 500 (some remoteBody)) ts0).tasks =
      JValue.arr [JValue.str "x".data] ∧
    loadTasksFromRemote (RemoteOutcome.response 500 (some remoteBody)) ts0 ≠
      remoteSentinel ts0 := by
  constructor
  · rfl
  · intro h
    have h2 : JValue.arr [JValue.str "x".data] = JValue.arr [] := by
      calc JValue.arr [JValue.str "x".data]
          = (loadTasksFromRemote (RemoteOutcome.response 500 (some remoteBody)) ts0).tasks :=
            rfl
        _ = (remoteSentinel ts0).tasks := by rw [h]
        _ = JValue.arr [] := rfl
    simp at h2

/-- C7 amended: `fetchAll` resolves with the empty-store sentinel on any
network error, timeout, or body that fails `JSON.parse` or lacks a
truthy `tasks` field, and never propagates an error (every path
resolves); the HTTP status code is ignored, so a non-2xx response with a
parseable `tasks`-bearing body yields those tasks instead. -/
theorem loadTasksFromRemote_failure_handling (st : Nat) (ts : Str) :
    loadTasksFromRemote RemoteOutcome.netError ts = remoteSentinel ts ∧
    loadTasksFromRemote RemoteOutcome.timeout ts = remoteSentinel ts ∧
    loadTasksFromRemote (RemoteOutcome.response st none) ts = remoteSentinel ts ∧
    (∀ v : JValue, (∀ w, jField "tasks".data v = some w → jsTruthy w = false) →
      loadTasksFromRemote (RemoteOutcome.response st (some v)) ts = remoteSentinel ts) := by
  refine ⟨rfl, rfl, rfl, ?_⟩
  intro v hw
  have hfld : tasksFieldOrEmpty v = .arr [] := by
    unfold tasksFieldOrEmpty
    rcases hv : jField "tasks".data v with _ | w
    · rfl
    · simp [hw w hv]
  simp [loadTasksFromRemote, hfld, remoteSentinel]

/-- Witness for the amended C7: a 200 response whose body is an object
without a `tasks` field resolves with the sentinel. -/
theorem loadTasksFromRemote_failure_handling_witness :
    loadTasksFromRemote (RemoteOutcome.response 200 (some (JValue.obj []))) ts0 =
      remoteSentinel ts0 := by
  have h := loadTasksFromRemote_failure_handling 200 ts0
  refine h.2.2.2 (JValue.obj []) ?_
  intro w hw
  simp [jField, lookupField] at hw

/-! Claim C6: fingerprint determinism and status sensitivity.

The sensitivity argument: the multiset of characters of the fingerprint
is invariant under the sort, and the four status strings are pairwise
separated by the measure (length, number of letter p), so replacing one
task's status changes that measure of the whole fingerprint. -/

/-- Sorted insertion permutes a cons. -/
theorem insertSorted_perm (s : Str) (l : List Str) :
    (insertSorted s l).Perm (s :: l) := by
  induction l with
  | nil => exact List.Perm.refl _
  | cons x xs ih =>
      by_cases h : strLe s x = true
      · simp [insertSorted, h]
      · simp only [insertSorted, h, if_false]
        exact ((ih.cons x).trans (List.Perm.swap s x xs))

/-- The modelled JS sort permutes its input. -/
theorem sortStrs_perm (l : List Str) : (sortStrs l).Perm l := by
  induction l with
  | nil => exact List.Perm.refl _
  | cons x xs ih => exact (insertSorted_perm x (sortStrs xs)).trans (ih.cons x)

/-- Length of a `"|"`-join of a non-empty list: entry lengths plus one
separator between neighbours. -/
theorem joinBar_length (l : List Str) (h : l ≠ []) :
    (joinBar l).length + 1 = (l.map List.length).sum + l.length := by
  induction l with
  | nil => exact absurd rfl h
  | cons s rest ih =>
      cases rest with
      | nil => simp [joinBar]
      | cons s' rest' =>
          have ih' := ih (by simp)
          simp only [joinBar, List.length_append, List.length_cons, List.map_cons,
            List.sum_cons] at *
          omega

/-- Occurrences of a non-separator character in a `"|"`-join: the sum of
its occurrences in the entries. -/
theorem joinBar_count (c : Char) (hc : (('|' : Char) == c) = false) (l : List Str) :
    (joinBar l).count c = (l.map (fun s => s.count c)).sum := by
  induction l with
  | nil => simp [joinBar]
  | cons s rest ih =>
      cases rest with
      | nil => simp [joinBar]
      | cons s' rest' =>
          simp only [joinBar, List.count_append, List.count_cons, hc,
            Bool.false_eq_true, if_false, List.map_cons, List.sum_cons] at *
          omega

/-- Sum of a mapped measure is invariant under the modelled sort. -/
theorem sortStrs_map_sum (g : Str → Nat) (l : List Str) :
    ((sortStrs l).map g).sum = (l.map g).sum :=
  ((sortStrs_perm l).map g).sum_eq

/-- Length of one fingerprint entry. -/
theorem entry_length (t : Task) :
    (entry t).length = t.id.length + 1 + (statusStr t.status).length := by
  simp [entry]
  omega

/-- Letter-p count of one fingerprint entry. -/
theorem entry_count_p (t : Task) :
    (entry t).count 'p' = t.id.count 'p' + (statusStr t.status).count 'p' := by
  simp [entry, List.count_append]

/-- The two measures separate the four status strings. -/
theorem statusStr_separated (a b : TaskStatus)
    (h1 : (statusStr a).length = (statusStr b).length)
    (h2 : (statusStr a).count 'p' = (statusStr b).count 'p') : a = b := by
  revert h1 h2
  cases a <;> cases b <;> decide

/-- Replacing the status of one task in a list changes the fingerprint:
the sum of entry lengths or the sum of entry p-counts changes, and both
are determined by the fingerprint string. -/
theorem tasksFingerprint_status_change (pre post : List Task) (t : Task)
    (s' : TaskStatus) (hne : s' ≠ t.status) :
    tasksFingerprint (pre ++ t :: post) ≠
      tasksFingerprint (pre ++ { t with status := s' } :: post) := by
  intro heq
  have hAne : sortStrs ((pre ++ t :: post).map entry) ≠ [] := by
    intro h0
    have hlen := (sortStrs_perm ((pre ++ t :: post).map entry)).length_eq
    rw [h0] at hlen
    simp at hlen
    omega
  have hBne : sortStrs ((pre ++ { t with status := s' } :: post).map entry) ≠ [] := by
    intro h0
    have hlen := (sortStrs_perm ((pre ++ { t with status := s' } :: post).map entry)).length_eq
    rw [h0] at hlen
    simp at hlen
    omega
  have hnA : (sortStrs ((pre ++ t :: post).map entry)).length =
      pre.length + 1 + post.length := by
    rw [(sortStrs_perm _).length_eq]
    simp
    omega
  have hnB : (sortStrs ((pre ++ { t with status := s' } :: post).map entry)).length =
      pre.length + 1 + post.length := by
    rw [(sortStrs_perm _).length_eq]
    simp
    omega
  -- equal lengths of the joined strings
  have hL := congrArg List.length heq
  rw [tasksFingerprint, tasksFingerprint] at hL
  have hLA := joinBar_length _ hAne
  have hLB := joinBar_length _ hBne
  rw [sortStrs_map_sum, hnA] at hLA
  rw [sortStrs_map_sum, hnB] at hLB
  have hsumL : (((pre ++ t :: post).map entry).map List.length).sum =
      (((pre ++ { t with status := s' } :: post).map entry).map List.length).sum := by
    omega
  -- equal p-counts of the joined strings
  have hP := congrArg (fun s : Str => s.count 'p') heq
  simp only [tasksFingerprint] at hP
  rw [joinBar_count 'p' (by decide) _, joinBar_count 'p' (by decide) _] at hP
  rw [sortStrs_map_sum, sortStrs_map_sum] at hP
  -- unfold the sums over the split lists
  have hexpL : ∀ (u : Task),
      (((pre ++ u :: post).map entry).map List.length).sum =
        ((pre.map entry).map List.length).sum + (entry u).length +
          ((post.map entry).map List.length).sum := by
    intro u
    simp [List.map_append, List.sum_append]
    omega
  have hexpP : ∀ (u : Task),
      (((pre ++ u :: post).map entry).map (fun s => s.count 'p')).sum =
        ((pre.map entry).map (fun s => s.count 'p')).sum + (entry u).count 'p' +
          ((post.map entry).map (fun s => s.count 'p')).sum := by
    intro u
    simp [List.map_append, List.sum_append]
    omega
  rw [hexpL t, hexpL { t with status := s' }] at hsumL
  rw [hexpP t, hexpP { t with status := s' }] at hP
  have hl : (entry t).length = (entry { t with status := s' }).length := by omega
  have hp : (entry t).count 'p' = (entry { t with status := s' }).count 'p' := by omega
  rw [entry_length, entry_length] at hl
  rw [entry_count_p, entry_count_p] at hp
  have h1 : (statusStr t.status).length = (statusStr s').length := by
    simpa using hl
  have h2 : (statusStr t.status).count 'p' = (statusStr s').count 'p' := by
    simpa using hp
  exact hne (statusStr_separated t.status s' h1 h2).symm

/-- C6: the fingerprint of the reconciled list is deterministic
(reconciling the same two lists twice yields the identical string), and
on a merged list with pairwise-distinct ids, changing the status of any
one task changes the fingerprint. -/
theorem reconcile_fingerprint_stable_sensitive (L R pre post : List Task)
    (t : Task) (s' : TaskStatus)
    (hids : ((reconcile L R).map Task.id).Nodup)
    (hsplit : reconcile L R = pre ++ t :: post)
    (hne : s' ≠ t.status) :
    tasksFingerprint (reconcile L R) = tasksFingerprint (reconcile L R) ∧
    tasksFingerprint (reconcile L R) ≠
      tasksFingerprint (pre ++ { t with status := s' } :: post) := by
  refine ⟨rfl, ?_⟩
  rw [hsplit]
  exact tasksFingerprint_status_change pre post t s' hne

/-- Witness for C6: flipping the single merged task of a concrete
reconciliation from `pending` to `done` changes the fingerprint. -/
theorem reconcile_fingerprint_stable_sensitive_witness :
    tasksFingerprint (reconcile [cexTask1] []) ≠
      tasksFingerprint ([] ++ { cexTask1 with status := TaskStatus.done } :: []) := by
  have h := reconcile_fingerprint_stable_sensitive [cexTask1] [] [] [] cexTask1
      TaskStatus.done (by decide) (by decide) (by decide)
  exact h.2

end DevFlow
